import Mathlib

/-!
Shallow embedding of the SwapSleuth arbitrage analyzer
(`src/arbitrage-analyzer-rust/src/main.rs`).

Modelling conventions:
* Rust `f64` values are modelled as `ℚ` (exact rational arithmetic).
* `HashMap<String, OrderBook>` is modelled as an association list
  `List (String × OrderBook)`; the (unspecified) iteration order of the
  Rust `HashMap` is fixed to list order, and the grouping map built by
  `group_books_by_pair` iterates group keys in first-occurrence order.
* The `id : String` (a fresh UUID) and `timestamp` (wall-clock time)
  fields of `ArbitrageOpportunity` are effectful identifiers carrying no
  analysis logic; they are omitted from the record.
* Rust string primitives (`str::contains`, `str::replace`,
  `str::split`) are re-implemented structurally over character lists so
  that they evaluate by kernel reduction.
-/

namespace SwapSleuth

/-- Rust `str::is_prefix`-style check is `List.isPrefixOf` on chars.
`containsChars pat s` models Rust `s.contains(pat)`: does `pat` occur as a
contiguous substring of `s`?  (An empty pattern is contained in every
string, as in Rust.) -/
def containsChars (pat : List Char) : List Char → Bool
  | [] => pat.isEmpty
  | c :: rest => pat.isPrefixOf (c :: rest) || containsChars pat rest

/-- Rust `s.contains(pat)` on `String`. -/
def strContains (s pat : String) : Bool :=
  containsChars pat.toList s.toList

/-- One fuel-indexed pass of Rust `str::replace`: replace non-overlapping
occurrences of `pat` by `rep`, scanning left to right.  The fuel is the
length of the scanned list, so it never runs out; callers never pass an
empty pattern (Rust inserts `rep` at every boundary in that case, a case
the analyzer never exercises — the guard keeps the model total). -/
def replaceChars : Nat → List Char → List Char → List Char → List Char
  | _, _, _, [] => []
  | 0, _, _, s => s
  | fuel + 1, pat, rep, c :: rest =>
    if !pat.isEmpty && pat.isPrefixOf (c :: rest) then
      rep ++ replaceChars fuel pat rep ((c :: rest).drop pat.length)
    else
      c :: replaceChars fuel pat rep rest

/-- Rust `s.replace(pat, rep)`. -/
def strReplace (s pat rep : String) : String :=
  String.mk (replaceChars s.toList.length pat.toList rep.toList s.toList)

/-- `OrderBook` (main.rs lines 16–28): `bids`/`asks` are best-first lists
of `(price, size)` levels; `f64` becomes `ℚ`. -/
structure OrderBook where
  exchange : String
  pair : String
  bids : List (ℚ × ℚ)
  asks : List (ℚ × ℚ)
  timestamp : ℤ
deriving DecidableEq

/-- `ArbitrageOpportunity` (main.rs lines 30–44) without the effectful
`id` (UUID) and `timestamp` (wall clock) fields. -/
structure ArbitrageOpportunity where
  buy_exchange : String
  sell_exchange : String
  pair : String
  buy_price : ℚ
  sell_price : ℚ
  max_size : ℚ
  gross_profit_per_unit : ℚ
  estimated_fees : ℚ
  net_profit : ℚ
  roi_percentage : ℚ
deriving DecidableEq

/-- `FeesConfig` (main.rs lines 62–74); the withdrawal-fee `HashMap` is an
association list. -/
structure FeesConfig where
  binance_taker_fee : ℚ
  binance_maker_fee : ℚ
  uniswap_fee : ℚ
  ethereum_gas_cost : ℚ
  withdrawal_fees : List (String × ℚ)
  use_market_orders : Bool
deriving DecidableEq

/-- `FeesConfig::default` (main.rs lines 76–94). -/
def defaultFeesConfig : FeesConfig :=
  ⟨1/10, 1/10, 3/10, 50,
   [("BTC", 1/2000), ("WBTC", 1/2000), ("ETH", 1/200), ("USDT", 10)],
   true⟩

/-- `MIN_ABSOLUTE_PROFIT` (main.rs line 13). -/
def MIN_ABSOLUTE_PROFIT : ℚ := 1

/-- `MIN_ROI_PERCENTAGE` (main.rs line 14). -/
def MIN_ROI_PERCENTAGE : ℚ := 1/10

/-- Base-currency extraction of `estimate_fees_and_gas`
(main.rs lines 138–147).  `pair.split("/").next()` always yields the
prefix before the first `/` (the iterator is never empty, so the
`unwrap_or("BTC")` fallback is dead), which is `takeWhile (· ≠ '/')`. -/
def extract_base_currency (pair : String) : String :=
  if strContains pair "/" then
    String.mk (pair.toList.takeWhile (fun c => c ≠ '/'))
  else if strContains pair "USDT" then
    strReplace pair "USDT" ""
  else if strContains pair "USD" then
    strReplace pair "USD" ""
  else
    String.mk (pair.toList.take 4)

/-- `estimate_fees_and_gas` (main.rs lines 129–174): the two per-side
`match` blocks followed by the withdrawal-fee lookup, all summed into
`total_fees`. -/
def estimate_fees_and_gas (cfg : FeesConfig) (size : ℚ)
    (buy_exchange sell_exchange pair : String) : ℚ :=
  let base_currency := extract_base_currency pair
  let buy_side : ℚ :=
    if buy_exchange = "binance" then size * cfg.binance_taker_fee / 100
    else if buy_exchange = "uniswap-v3-exact" then
      size * cfg.uniswap_fee / 100 + cfg.ethereum_gas_cost
    else size * (15/100) / 100
  let sell_side : ℚ :=
    if sell_exchange = "binance" then size * cfg.binance_taker_fee / 100
    else if sell_exchange = "uniswap-v3-exact" then
      size * cfg.uniswap_fee / 100 + cfg.ethereum_gas_cost
    else size * (15/100) / 100
  let fee_lookup_currency := strReplace base_currency "WBTC" "BTC"
  let withdrawal : ℚ :=
    match cfg.withdrawal_fees.lookup fee_lookup_currency with
    | some w => w * size
    | none => 0
  buy_side + sell_side + withdrawal

/-- `normalize_pair_symbols` (main.rs lines 176–190). -/
def normalize_pair_symbols (pair1 pair2 : String) : String × String × ℚ :=
  (strReplace pair1 "WBTC" "BTC", strReplace pair2 "WBTC" "BTC",
   if strContains pair1 "WBTC" || strContains pair2 "WBTC" then 9999/10000
   else 1)

/-- `choose_execution_size` (main.rs lines 192–204). -/
def choose_execution_size (ask_size bid_size : ℚ) : ℚ :=
  let max_possible := min ask_size bid_size
  let conservative_size := max_possible * (8/10)
  let max_usd_size : ℚ := 100000
  let reasonable_max := max_usd_size / 50000
  min conservative_size reasonable_max

/-- `evaluate_opportunity` (main.rs lines 299–345). -/
def evaluate_opportunity (cfg : FeesConfig)
    (buy_exchange sell_exchange pair : String)
    (buy_price sell_price buy_size sell_size : ℚ) :
    Option ArbitrageOpportunity :=
  if sell_price ≤ buy_price then none
  else
    let max_size := choose_execution_size buy_size sell_size
    if max_size ≤ 0 then none
    else
      let gross_profit_per_unit := sell_price - buy_price
      let estimated_fees :=
        estimate_fees_and_gas cfg max_size buy_exchange sell_exchange pair
      let gross_profit := gross_profit_per_unit * max_size
      let net_profit := gross_profit - estimated_fees
      let roi_percentage := net_profit / (buy_price * max_size) * 100
      if net_profit < MIN_ABSOLUTE_PROFIT ∨
          roi_percentage < MIN_ROI_PERCENTAGE then none
      else
        some ⟨buy_exchange, sell_exchange, pair, buy_price, sell_price,
          max_size, gross_profit_per_unit, estimated_fees, net_profit,
          roi_percentage⟩

/-- The in-memory book store `HashMap<String, OrderBook>` as an
association list from book key to book. -/
abbrev Store : Type := List (String × OrderBook)

/-- The canonical-pair substitution used by `group_books_by_pair`
(main.rs line 212): `book.pair.replace("WBTC", "BTC")`. -/
def canonPair (p : String) : String := strReplace p "WBTC" "BTC"

/-- The distinct canonical pairs present in the store, in first-occurrence
order: the key set of the grouping `HashMap` built by
`group_books_by_pair` (main.rs lines 207–217). -/
def groupKeys : Store → List String
  | [] => []
  | kb :: rest =>
    let p := canonPair kb.2.pair
    p :: (groupKeys rest).filter (fun q => q ≠ p)

/-- The group of books whose canonical pair is `p`: the value the grouping
`HashMap` associates to key `p` (books kept in store order, matching the
push order of main.rs line 213). -/
def groupOf (books : Store) (p : String) : Store :=
  books.filter (fun kb => canonPair kb.2.pair == p)

/-- One ordered comparison of the inner double loop of
`analyze_all_spreads` (main.rs lines 241–275): skip same-exchange pairs
and empty books, compute the wrapped-token price adjustment, and evaluate
buying at book1's best ask and selling at book2's best bid. -/
def tryPair (cfg : FeesConfig) (normalized_pair : String)
    (e1 e2 : String × OrderBook) : Option ArbitrageOpportunity :=
  let b1 := e1.2
  let b2 := e2.2
  if b1.exchange == b2.exchange then none
  else if b1.bids.isEmpty || b1.asks.isEmpty ||
      b2.bids.isEmpty || b2.asks.isEmpty then none
  else
    let price_adjustment := (normalize_pair_symbols b1.pair b2.pair).2.2
    let ask0 := b1.asks.headD (0, 0)
    let bid0 := b2.bids.headD (0, 0)
    evaluate_opportunity cfg b1.exchange b2.exchange normalized_pair
      (ask0.1 * price_adjustment) bid0.1 ask0.2 bid0.2

/-- The `i < j` double loop of `analyze_all_spreads`
(main.rs lines 239–277) over one canonical-pair group. -/
def scanGroup (cfg : FeesConfig) (normalized_pair : String) :
    Store → List ArbitrageOpportunity
  | [] => []
  | kb :: rest =>
    rest.filterMap (tryPair cfg normalized_pair kb) ++
      scanGroup cfg normalized_pair rest

/-- The descending-ROI comparison used by the final sort
(main.rs line 281): `b.roi_percentage.partial_cmp(&a.roi_percentage)`. -/
def roiGe (a b : ArbitrageOpportunity) : Bool :=
  decide (b.roi_percentage ≤ a.roi_percentage)

/-- `analyze_all_spreads` (main.rs lines 219–284): group by canonical
pair, run the pairwise loop on each group (groups of size `< 1` are
skipped, mirroring the literal guard on line 230), and sort the collected
opportunities by descending ROI (stable merge sort, matching `sort_by`). -/
def analyze_all_spreads (cfg : FeesConfig) (books : Store) :
    List ArbitrageOpportunity :=
  let raw := (groupKeys books).flatMap fun p =>
    if (groupOf books p).length < 1 then []
    else scanGroup cfg p (groupOf books p)
  raw.mergeSort roiGe

/-- `analyze_spread` (main.rs lines 286–297): run the full scan, look up
the updated key, and filter for opportunities whose buy or sell exchange
equals the updated book's exchange.  The function mutates nothing, so the
store is returned unchanged alongside the result (it takes `&mut self` in
Rust but never writes `self.books`). -/
def analyze_spread (cfg : FeesConfig) (books : Store) (updated_key : String) :
    Except String (List ArbitrageOpportunity) × Store :=
  let all := analyze_all_spreads cfg books
  match books.lookup updated_key with
  | none =>
    (Except.error ("Orderbook not found for key: " ++ updated_key), books)
  | some updated_book =>
    (Except.ok (all.filter fun opp =>
        opp.buy_exchange == updated_book.exchange ||
        opp.sell_exchange == updated_book.exchange),
     books)

/-- The fee contribution of one trade leg: the body shared by the two
per-side `match` blocks of `estimate_fees_and_gas` (main.rs lines
150–166), named so the per-side structure of the fee estimate can be
stated. -/
def venue_side_fee (cfg : FeesConfig) (size : ℚ) (ex : String) : ℚ :=
  if ex = "binance" then size * cfg.binance_taker_fee / 100
  else if ex = "uniswap-v3-exact" then
    size * cfg.uniswap_fee / 100 + cfg.ethereum_gas_cost
  else size * (15/100) / 100

/-- The withdrawal-fee component of `estimate_fees_and_gas`
(main.rs lines 168–172). -/
def withdrawal_component (cfg : FeesConfig) (size : ℚ) (pair : String) : ℚ :=
  match cfg.withdrawal_fees.lookup
      (strReplace (extract_base_currency pair) "WBTC" "BTC") with
  | some w => w * size
  | none => 0

/-! Concrete data for the spec's worked scenario (spec §8): venue A
quotes ask `(30000, 1.0)` and venue B quotes bid `(30200, 1.0)` for
"BTC/USDT".  The books are given benign opposite sides (A's bid 29900,
B's ask 30300) so that both books pass the non-empty checks, and venue A
is stored first so the single evaluated direction is buy-at-A /
sell-at-B. -/

/-- Venue A's book: the "binance" book quoting best ask `(30000, 1)`. -/
def bookA : OrderBook :=
  ⟨"binance", "BTC/USDT", [(29900, 1)], [(30000, 1)], 0⟩

/-- Venue B's book: the "kraken" book quoting best bid `(30200, 1)`. -/
def bookB : OrderBook :=
  ⟨"kraken", "BTC/USDT", [(30200, 1)], [(30300, 1)], 0⟩

/-- The two-book store of the worked scenario. -/
def storeAB : Store :=
  [("binance:BTC/USDT", bookA), ("kraken:BTC/USDT", bookB)]

/-- The scenario's fee configuration: 0.1% taker fee, and no withdrawal
fee configured for any asset ("no withdrawal fee configured for BTC"). -/
def feesNoWithdrawal : FeesConfig := ⟨1/10, 1/10, 3/10, 50, [], true⟩

/-- The one opportunity the code actually produces on `storeAB` under
`feesNoWithdrawal`: fees are `0.8*0.1/100 + 0.8*0.15/100 = 1/500`
(percentages of size, not of notional), net profit `160 - 1/500`,
ROI `(79999/500)/24000*100`. -/
def oppAB : ArbitrageOpportunity :=
  ⟨"binance", "kraken", "BTC/USDT", 30000, 30200, 4/5, 200, 1/500,
   79999/500, 79999/120000⟩

/-- The opportunity produced on `storeAB` under `defaultFeesConfig`
(which adds the BTC withdrawal fee `0.0005` per unit:
fees `1/500 + (1/2000)*(4/5) = 3/1250`). -/
def oppABdefault : ArbitrageOpportunity :=
  ⟨"binance", "kraken", "BTC/USDT", 30000, 30200, 4/5, 200, 3/1250,
   199997/1250, 199997/300000⟩

/-- A same-exchange opportunity constructed by `evaluate_opportunity`
when called with equal buy and sell venue names (nothing in the evaluator
rejects this; only the scan loops skip same-exchange comparisons). -/
def oppSameExchange : ArbitrageOpportunity :=
  ⟨"kraken", "kraken", "AAA/BBB", 100, 300, 4/5, 200, 3/1250,
   199997/1250, 199997/1000⟩

/-- A one-book store. -/
def storeSolo : Store := [("kraken:BTC/USDT", bookB)]

/-- The opportunity returned by the evaluator for a cross-venue
"binance" → "uniswap-v3-exact" trade on "ETH/USDT" at prices 2000/3000
with unit sizes: fees are `(4/5)*(1/10)/100 + ((4/5)*(3/10)/100 + 50) +
(1/200)*(4/5) = 62509/1250`. -/
def oppCross : ArbitrageOpportunity :=
  ⟨"binance", "uniswap-v3-exact", "ETH/USDT", 2000, 3000, 4/5, 1000,
   62509/1250, 937491/1250, 937491/20000⟩

/-! ### String-evaluation facts used to run the model on concrete data -/

lemma canon_btc_usdt : canonPair "BTC/USDT" = "BTC/USDT" := by decide

lemma base_btc_usdt : extract_base_currency "BTC/USDT" = "BTC" := by decide

lemma rep_btc : strReplace "BTC" "WBTC" "BTC" = "BTC" := by decide

lemma nowbtc_btc_usdt : strContains "BTC/USDT" "WBTC" = false := by decide

lemma base_aaa_bbb : extract_base_currency "AAA/BBB" = "AAA" := by decide

lemma rep_aaa : strReplace "AAA" "WBTC" "BTC" = "AAA" := by decide

lemma lookup_aaa_default :
    List.lookup "AAA" defaultFeesConfig.withdrawal_fees = none := by decide

lemma base_eth_usdt : extract_base_currency "ETH/USDT" = "ETH" := by decide

lemma rep_eth : strReplace "ETH" "WBTC" "BTC" = "ETH" := by decide

/-! ### Characterization of the evaluator -/

/-- `evaluate_opportunity` succeeds exactly when the spread is positive,
the chosen size is positive and both thresholds pass, and then the
returned record is determined by the inputs. -/
lemma evaluate_opportunity_some_iff (cfg : FeesConfig) (be se pair : String)
    (bp sp bs ss : ℚ) (opp : ArbitrageOpportunity) :
    evaluate_opportunity cfg be se pair bp sp bs ss = some opp ↔
      bp < sp ∧ 0 < choose_execution_size bs ss ∧
      MIN_ABSOLUTE_PROFIT ≤
        (sp - bp) * choose_execution_size bs ss -
          estimate_fees_and_gas cfg (choose_execution_size bs ss) be se pair ∧
      MIN_ROI_PERCENTAGE ≤
        ((sp - bp) * choose_execution_size bs ss -
          estimate_fees_and_gas cfg (choose_execution_size bs ss) be se pair) /
          (bp * choose_execution_size bs ss) * 100 ∧
      opp = ⟨be, se, pair, bp, sp, choose_execution_size bs ss, sp - bp,
        estimate_fees_and_gas cfg (choose_execution_size bs ss) be se pair,
        (sp - bp) * choose_execution_size bs ss -
          estimate_fees_and_gas cfg (choose_execution_size bs ss) be se pair,
        ((sp - bp) * choose_execution_size bs ss -
          estimate_fees_and_gas cfg (choose_execution_size bs ss) be se pair) /
          (bp * choose_execution_size bs ss) * 100⟩ := by
  simp only [evaluate_opportunity]
  split_ifs with h1 h2 h3
  · simp only [false_iff, reduceCtorEq]
    rintro ⟨hb, -⟩
    exact absurd hb (not_lt.mpr h1)
  · simp only [false_iff, reduceCtorEq]
    rintro ⟨-, hs, -⟩
    exact absurd hs (not_lt.mpr h2)
  · simp only [false_iff, reduceCtorEq]
    rintro ⟨-, -, hnp, hroi, -⟩
    rcases h3 with h3 | h3
    · exact absurd h3 (not_lt.mpr hnp)
    · exact absurd h3 (not_lt.mpr hroi)
  · push_neg at h3
    rw [Option.some_inj]
    constructor
    · intro h
      exact ⟨not_le.mp h1, not_le.mp h2, h3.1, h3.2, h.symm⟩
    · rintro ⟨-, -, -, -, h⟩
      exact h.symm

/-- `evaluate_opportunity` returns `none` exactly when one of the
rejection conditions fires. -/
lemma evaluate_opportunity_none_iff (cfg : FeesConfig) (be se pair : String)
    (bp sp bs ss : ℚ) :
    evaluate_opportunity cfg be se pair bp sp bs ss = none ↔
      sp ≤ bp ∨ choose_execution_size bs ss ≤ 0 ∨
      (sp - bp) * choose_execution_size bs ss -
          estimate_fees_and_gas cfg (choose_execution_size bs ss) be se pair <
        MIN_ABSOLUTE_PROFIT ∨
      ((sp - bp) * choose_execution_size bs ss -
          estimate_fees_and_gas cfg (choose_execution_size bs ss) be se pair) /
          (bp * choose_execution_size bs ss) * 100 <
        MIN_ROI_PERCENTAGE := by
  simp only [evaluate_opportunity]
  split_ifs with h1 h2 h3
  · simp [h1]
  · simp [h1, h2]
  · rcases h3 with h3 | h3 <;> simp [h3]
  · push_neg at h1 h2 h3
    simp only [reduceCtorEq, false_iff]
    push_neg
    exact ⟨h1, h2, h3.1, h3.2⟩

/-! ### C3: rejection conditions and result formulas of the evaluator -/

/-- C3: for every input, the evaluator returns `none` exactly when
`sellPrice ≤ buyPrice`, or the computed execution size is `≤ 0`, or
`netProfit < MIN_ABSOLUTE_PROFIT`, or
`roiPercentage < MIN_ROI_PERCENTAGE` (both thresholds must pass);
otherwise it returns exactly one opportunity, whose fields satisfy
`grossProfitPerUnit = sellPrice - buyPrice`,
`netProfit = grossProfitPerUnit * size - estimatedFees`, and
`roiPercentage = netProfit / (buyPrice * size) * 100`. -/
theorem evaluate_opportunity_cases (cfg : FeesConfig) (be se pair : String)
    (bp sp bs ss : ℚ) :
    (evaluate_opportunity cfg be se pair bp sp bs ss = none ↔
      sp ≤ bp ∨ choose_execution_size bs ss ≤ 0 ∨
      (sp - bp) * choose_execution_size bs ss -
          estimate_fees_and_gas cfg (choose_execution_size bs ss) be se pair <
        MIN_ABSOLUTE_PROFIT ∨
      ((sp - bp) * choose_execution_size bs ss -
          estimate_fees_and_gas cfg (choose_execution_size bs ss) be se pair) /
          (bp * choose_execution_size bs ss) * 100 <
        MIN_ROI_PERCENTAGE) ∧
    ∀ opp, evaluate_opportunity cfg be se pair bp sp bs ss = some opp →
      opp.gross_profit_per_unit = sp - bp ∧
      opp.max_size = choose_execution_size bs ss ∧
      opp.estimated_fees =
        estimate_fees_and_gas cfg (choose_execution_size bs ss) be se pair ∧
      opp.net_profit =
        opp.gross_profit_per_unit * opp.max_size - opp.estimated_fees ∧
      opp.roi_percentage = opp.net_profit / (bp * opp.max_size) * 100 := by
  refine ⟨evaluate_opportunity_none_iff cfg be se pair bp sp bs ss, ?_⟩
  intro opp h
  rcases (evaluate_opportunity_some_iff cfg be se pair bp sp bs ss opp).1 h
    with ⟨-, -, -, -, rfl⟩
  exact ⟨rfl, rfl, rfl, rfl, rfl⟩

/-- Witness for C3: the second component applied at a concrete accepted
input (default fees, buy "binance" at 30000, sell "kraken" at 30200,
sizes 1). -/
theorem evaluate_opportunity_cases_witness :
    oppABdefault.gross_profit_per_unit = 30200 - 30000 ∧
    oppABdefault.max_size = choose_execution_size 1 1 ∧
    oppABdefault.estimated_fees =
      estimate_fees_and_gas defaultFeesConfig (choose_execution_size 1 1)
        "binance" "kraken" "BTC/USDT" ∧
    oppABdefault.net_profit =
      oppABdefault.gross_profit_per_unit * oppABdefault.max_size -
        oppABdefault.estimated_fees ∧
    oppABdefault.roi_percentage =
      oppABdefault.net_profit / (30000 * oppABdefault.max_size) * 100 :=
  (evaluate_opportunity_cases defaultFeesConfig "binance" "kraken"
      "BTC/USDT" 30000 30200 1 1).2 oppABdefault (by
    simp [evaluate_opportunity, choose_execution_size,
      estimate_fees_and_gas, defaultFeesConfig, base_btc_usdt, rep_btc,
      List.lookup, MIN_ABSOLUTE_PROFIT, MIN_ROI_PERCENTAGE, oppABdefault]
    norm_num)

/-! ### C5: the sizing policy is bounded -/

/-- C5: for non-negative ask and bid sizes the chosen execution size is
at most `min a b`, at most the fixed cap `100000 / 50000 = 2`, and equals
`min (min a b * 0.8) 2`. -/
theorem choose_execution_size_bounds (a b : ℚ) (ha : 0 ≤ a) (hb : 0 ≤ b) :
    choose_execution_size a b ≤ min a b ∧
    choose_execution_size a b ≤ 100000 / 50000 ∧
    choose_execution_size a b = min (min a b * (8/10)) 2 := by
  unfold choose_execution_size
  refine ⟨?_, ?_, by norm_num⟩
  · have hm : 0 ≤ min a b := le_min ha hb
    have h1 : min a b * (8/10) ≤ min a b := by nlinarith
    exact le_trans (min_le_left _ _) h1
  · exact min_le_right _ _

/-- Witness for C5 at `a = 3`, `b = 1`. -/
theorem choose_execution_size_bounds_witness :
    ((0:ℚ) ≤ 3 ∧ (0:ℚ) ≤ 1) ∧
    (choose_execution_size 3 1 ≤ min 3 1 ∧
     choose_execution_size 3 1 ≤ 100000 / 50000 ∧
     choose_execution_size 3 1 = min (min 3 1 * (8/10)) 2) :=
  ⟨⟨by norm_num, by norm_num⟩,
   choose_execution_size_bounds 3 1 (by norm_num) (by norm_num)⟩

/-! ### C4: per-side structure of the fee estimate -/

/-- The fee estimate is the sum of the two per-side contributions and the
withdrawal component. -/
lemma estimate_fees_decomp (cfg : FeesConfig) (size : ℚ)
    (be se pair : String) :
    estimate_fees_and_gas cfg size be se pair =
      venue_side_fee cfg size be + venue_side_fee cfg size se +
        withdrawal_component cfg size pair := by
  simp [estimate_fees_and_gas, venue_side_fee, withdrawal_component]

/-- C4: per side, the estimate adds `size * takerFeePercent / 100` for
"binance", `size * onchainFeePercent / 100` plus the flat gas cost for
"uniswap-v3-exact", and the fallback `size * 0.15 / 100` for any other
venue; the gas cost is added once per side, hence twice when both legs
are on "uniswap-v3-exact". -/
theorem estimate_fees_per_side (cfg : FeesConfig) (size : ℚ)
    (be se pair : String) (h : 0 ≤ size) :
    estimate_fees_and_gas cfg size be se pair =
      venue_side_fee cfg size be + venue_side_fee cfg size se +
        withdrawal_component cfg size pair ∧
    venue_side_fee cfg size "binance" = size * cfg.binance_taker_fee / 100 ∧
    venue_side_fee cfg size "uniswap-v3-exact" =
      size * cfg.uniswap_fee / 100 + cfg.ethereum_gas_cost ∧
    (be ≠ "binance" → be ≠ "uniswap-v3-exact" →
      venue_side_fee cfg size be = size * (15/100) / 100) ∧
    estimate_fees_and_gas cfg size "uniswap-v3-exact" "uniswap-v3-exact"
        pair =
      2 * (size * cfg.uniswap_fee / 100) + 2 * cfg.ethereum_gas_cost +
        withdrawal_component cfg size pair := by
  refine ⟨estimate_fees_decomp cfg size be se pair, by simp [venue_side_fee],
    by simp [venue_side_fee], ?_, ?_⟩
  · intro h1 h2
    simp [venue_side_fee, h1, h2]
  · rw [estimate_fees_decomp]
    simp [venue_side_fee]
    ring

/-- Witness for C4 at `size = 1`, buy "kraken", sell "uniswap-v3-exact",
pair "BTC/USDT", default fee schedule. -/
theorem estimate_fees_per_side_witness :
    (0:ℚ) ≤ 1 ∧
    (estimate_fees_and_gas defaultFeesConfig 1 "kraken" "uniswap-v3-exact"
        "BTC/USDT" =
      venue_side_fee defaultFeesConfig 1 "kraken" +
        venue_side_fee defaultFeesConfig 1 "uniswap-v3-exact" +
        withdrawal_component defaultFeesConfig 1 "BTC/USDT" ∧
    venue_side_fee defaultFeesConfig 1 "binance" =
      1 * defaultFeesConfig.binance_taker_fee / 100 ∧
    venue_side_fee defaultFeesConfig 1 "uniswap-v3-exact" =
      1 * defaultFeesConfig.uniswap_fee / 100 +
        defaultFeesConfig.ethereum_gas_cost ∧
    ("kraken" ≠ "binance" → "kraken" ≠ "uniswap-v3-exact" →
      venue_side_fee defaultFeesConfig 1 "kraken" = 1 * (15/100) / 100) ∧
    estimate_fees_and_gas defaultFeesConfig 1 "uniswap-v3-exact"
        "uniswap-v3-exact" "BTC/USDT" =
      2 * (1 * defaultFeesConfig.uniswap_fee / 100) +
        2 * defaultFeesConfig.ethereum_gas_cost +
        withdrawal_component defaultFeesConfig 1 "BTC/USDT") :=
  ⟨by norm_num,
   estimate_fees_per_side defaultFeesConfig 1 "kraken" "uniswap-v3-exact"
     "BTC/USDT" (by norm_num)⟩

/-! ### C6: the fee estimate is non-negative and monotone in size -/

/-- Every withdrawal fee in the default schedule is non-negative. -/
lemma default_withdrawal_nonneg (k : String) (w : ℚ)
    (h : List.lookup k defaultFeesConfig.withdrawal_fees = some w) :
    0 ≤ w := by
  simp only [defaultFeesConfig, List.lookup] at h
  repeat' split at h
  all_goals
    first
      | (injection h with h; subst h; norm_num)
      | exact Option.noConfusion h

/-- Under the default schedule, each per-side fee is a non-negative
linear function of size. -/
lemma venue_side_fee_shape (ex : String) :
    ∃ A C : ℚ, 0 ≤ A ∧ 0 ≤ C ∧
      ∀ s : ℚ, venue_side_fee defaultFeesConfig s ex = A * s + C := by
  by_cases h1 : ex = "binance"
  · exact ⟨1/1000, 0, by norm_num, le_refl 0,
      fun s => by simp [venue_side_fee, h1, defaultFeesConfig]; ring⟩
  · by_cases h2 : ex = "uniswap-v3-exact"
    · exact ⟨3/1000, 50, by norm_num, by norm_num,
        fun s => by simp [venue_side_fee, h1, h2, defaultFeesConfig]; ring⟩
    · exact ⟨3/2000, 0, by norm_num, le_refl 0,
        fun s => by simp [venue_side_fee, h1, h2]; try ring⟩

/-- Under the default schedule, the withdrawal component is a
non-negative linear function of size. -/
lemma withdrawal_component_shape (pair : String) :
    ∃ A : ℚ, 0 ≤ A ∧
      ∀ s : ℚ, withdrawal_component defaultFeesConfig s pair = A * s := by
  cases hl : List.lookup (strReplace (extract_base_currency pair) "WBTC" "BTC")
      defaultFeesConfig.withdrawal_fees with
  | none =>
    exact ⟨0, le_refl 0, fun s => by simp [withdrawal_component, hl]⟩
  | some w =>
    exact ⟨w, default_withdrawal_nonneg _ _ hl,
      fun s => by simp [withdrawal_component, hl]; try ring⟩

/-- C6: for fixed venues and pair and the default fee schedule, the fee
estimate is non-negative and monotonically non-decreasing in size. -/
theorem estimate_fees_nonneg_mono (be se pair : String) (s1 s2 : ℚ)
    (h0 : 0 ≤ s1) (h12 : s1 ≤ s2) :
    0 ≤ estimate_fees_and_gas defaultFeesConfig s1 be se pair ∧
    estimate_fees_and_gas defaultFeesConfig s1 be se pair ≤
      estimate_fees_and_gas defaultFeesConfig s2 be se pair := by
  obtain ⟨Ab, Cb, hAb, hCb, hb⟩ := venue_side_fee_shape be
  obtain ⟨As, Cs, hAs, hCs, hs⟩ := venue_side_fee_shape se
  obtain ⟨Aw, hAw, hw⟩ := withdrawal_component_shape pair
  have e1 := estimate_fees_decomp defaultFeesConfig s1 be se pair
  have e2 := estimate_fees_decomp defaultFeesConfig s2 be se pair
  rw [hb, hs, hw] at e1 e2
  rw [e1, e2]
  constructor
  · nlinarith
  · nlinarith

/-- Witness for C6 at sizes `1 ≤ 2`, venues "binance" and
"uniswap-v3-exact", pair "WBTC/USDT". -/
theorem estimate_fees_nonneg_mono_witness :
    ((0:ℚ) ≤ 1 ∧ (1:ℚ) ≤ 2) ∧
    (0 ≤ estimate_fees_and_gas defaultFeesConfig 1 "binance"
        "uniswap-v3-exact" "WBTC/USDT" ∧
     estimate_fees_and_gas defaultFeesConfig 1 "binance" "uniswap-v3-exact"
        "WBTC/USDT" ≤
       estimate_fees_and_gas defaultFeesConfig 2 "binance"
         "uniswap-v3-exact" "WBTC/USDT") :=
  ⟨⟨by norm_num, by norm_num⟩,
   estimate_fees_nonneg_mono "binance" "uniswap-v3-exact" "WBTC/USDT" 1 2
     (by norm_num) (by norm_num)⟩

/-! ### C7: full-scan output is sorted by descending ROI -/

/-- C7: for every fee configuration and store contents, adjacent results
of the full scan have non-increasing `roi_percentage`. -/
theorem analyze_all_spreads_sorted (cfg : FeesConfig) (books : Store) :
    List.Chain' (fun a b => b.roi_percentage ≤ a.roi_percentage)
      (analyze_all_spreads cfg books) := by
  have htrans : ∀ a b c : ArbitrageOpportunity,
      roiGe a b = true → roiGe b c = true → roiGe a c = true := by
    intro a b c hab hbc
    simp only [roiGe, decide_eq_true_eq] at *
    exact le_trans hbc hab
  have htotal : ∀ a b : ArbitrageOpportunity,
      (roiGe a b || roiGe b a) = true := by
    intro a b
    simp only [roiGe, Bool.or_eq_true, decide_eq_true_eq]
    exact le_total b.roi_percentage a.roi_percentage
  unfold analyze_all_spreads
  exact ((List.sorted_mergeSort htrans htotal _).imp
    (fun hab => by simpa [roiGe] using hab)).chain'

/-! ### Membership structure of the full scan -/

/-- Members of a canonical-pair group are store entries whose canonical
pair is the group key. -/
lemma groupOf_mem (books : Store) (p : String) (e : String × OrderBook)
    (h : e ∈ groupOf books p) : e ∈ books ∧ canonPair e.2.pair = p := by
  rcases List.mem_filter.mp h with ⟨h1, h2⟩
  exact ⟨h1, by simpa using h2⟩

/-- A successful `tryPair` fixes the opportunity's pair and venues and
requires distinct exchanges. -/
lemma tryPair_some (cfg : FeesConfig) (p : String) (e1 e2 : String × OrderBook)
    (opp : ArbitrageOpportunity) (h : tryPair cfg p e1 e2 = some opp) :
    opp.pair = p ∧ opp.buy_exchange = e1.2.exchange ∧
    opp.sell_exchange = e2.2.exchange ∧ e1.2.exchange ≠ e2.2.exchange := by
  simp only [tryPair] at h
  split_ifs at h with h1 h2 <;>
    first
      | exact Option.noConfusion h
      | (rcases (evaluate_opportunity_some_iff _ _ _ _ _ _ _ _ _).1 h
          with ⟨-, -, -, -, rfl⟩
         exact ⟨rfl, rfl, rfl, by simpa using h1⟩)

/-- Every opportunity found in a group comes from an ordered pair of
group members. -/
lemma scanGroup_mem (cfg : FeesConfig) (p : String) (g : Store)
    (opp : ArbitrageOpportunity) (h : opp ∈ scanGroup cfg p g) :
    ∃ e1 e2, e1 ∈ g ∧ e2 ∈ g ∧ tryPair cfg p e1 e2 = some opp := by
  induction g with
  | nil => simp [scanGroup] at h
  | cons kb rest ih =>
    simp only [scanGroup, List.mem_append] at h
    rcases h with h | h
    · rcases List.mem_filterMap.mp h with ⟨e2, he2, heq⟩
      exact ⟨kb, e2, List.mem_cons_self kb rest,
        List.mem_cons_of_mem _ he2, heq⟩
    · rcases ih h with ⟨e1, e2, h1, h2, h3⟩
      exact ⟨e1, e2, List.mem_cons_of_mem _ h1,
        List.mem_cons_of_mem _ h2, h3⟩

/-- Every opportunity returned by the full scan comes from two store
entries with equal canonical pair via one `tryPair` comparison. -/
lemma analyze_all_spreads_mem (cfg : FeesConfig) (books : Store)
    (opp : ArbitrageOpportunity) (h : opp ∈ analyze_all_spreads cfg books) :
    ∃ p e1 e2, e1 ∈ books ∧ e2 ∈ books ∧ canonPair e1.2.pair = p ∧
      canonPair e2.2.pair = p ∧ tryPair cfg p e1 e2 = some opp := by
  unfold analyze_all_spreads at h
  replace h := (List.mergeSort_perm _ roiGe).mem_iff.mp h
  rcases List.mem_flatMap.mp h with ⟨p, -, hmem⟩
  split at hmem
  · exact absurd hmem (List.not_mem_nil opp)
  · rcases scanGroup_mem cfg p _ opp hmem with ⟨e1, e2, he1, he2, htp⟩
    rcases groupOf_mem books p e1 he1 with ⟨hb1, hc1⟩
    rcases groupOf_mem books p e2 he2 with ⟨hb2, hc2⟩
    exact ⟨p, e1, e2, hb1, hb2, hc1, hc2, htp⟩

/-! ### C8: a canonical pair quoted by a single venue yields nothing -/

/-- C8: if all books whose canonical pair is `p` share one exchange
(in particular if there is at most one such book), then no scan mode
returns an opportunity for canonical pair `p`. -/
theorem lone_canonical_pair_no_opportunity (cfg : FeesConfig) (books : Store)
    (p : String)
    (h : ∀ e1 ∈ books, ∀ e2 ∈ books,
      canonPair e1.2.pair = p → canonPair e2.2.pair = p →
      e1.2.exchange = e2.2.exchange) :
    (∀ opp ∈ analyze_all_spreads cfg books, opp.pair ≠ p) ∧
    ∀ key res store2, analyze_spread cfg books key = (Except.ok res, store2) →
      ∀ opp ∈ res, opp.pair ≠ p := by
  have main : ∀ opp ∈ analyze_all_spreads cfg books, opp.pair ≠ p := by
    intro opp hm hpair
    obtain ⟨q, e1, e2, he1, he2, hc1, hc2, htp⟩ :=
      analyze_all_spreads_mem cfg books opp hm
    obtain ⟨hq, -, -, hne⟩ := tryPair_some cfg q e1 e2 opp htp
    have hqp : q = p := hq.symm.trans hpair
    exact hne (h e1 he1 e2 he2 (hc1.trans hqp) (hc2.trans hqp))
  refine ⟨main, ?_⟩
  intro key res store2 hres opp hopp
  simp only [analyze_spread] at hres
  split at hres
  · simp at hres
  · injection hres with hres1 hres2
    injection hres1 with hres1
    subst hres1
    exact main opp (List.mem_filter.mp hopp).1

/-- Witness for C8: a store holding a single "BTC/USDT" book. -/
theorem lone_canonical_pair_no_opportunity_witness :
    (∀ opp ∈ analyze_all_spreads defaultFeesConfig storeSolo,
        opp.pair ≠ "BTC/USDT") ∧
    ∀ key res store2,
      analyze_spread defaultFeesConfig storeSolo key =
        (Except.ok res, store2) →
      ∀ opp ∈ res, opp.pair ≠ "BTC/USDT" :=
  lone_canonical_pair_no_opportunity defaultFeesConfig storeSolo "BTC/USDT"
    (by decide)

/-! ### C10: the opportunity invariant -/

/-- Every full-scan opportunity has distinct buy and sell exchanges
(the scan skips same-exchange comparisons before evaluation). -/
lemma analyze_all_spreads_distinct_exchanges (cfg : FeesConfig)
    (books : Store) (opp : ArbitrageOpportunity)
    (h : opp ∈ analyze_all_spreads cfg books) :
    opp.buy_exchange ≠ opp.sell_exchange := by
  obtain ⟨q, e1, e2, -, -, -, -, htp⟩ :=
    analyze_all_spreads_mem cfg books opp h
  obtain ⟨-, hbe, hse, hne⟩ := tryPair_some cfg q e1 e2 opp htp
  rw [hbe, hse]
  exact hne

/-- C10 counterexample: the evaluator itself never checks the venues, so
called with equal buy and sell exchange names it constructs an
opportunity violating `buy_exchange ≠ sell_exchange`. -/
theorem evaluator_allows_same_exchange :
    evaluate_opportunity defaultFeesConfig "kraken" "kraken" "AAA/BBB"
        100 300 1 1 = some oppSameExchange ∧
    oppSameExchange.buy_exchange = oppSameExchange.sell_exchange := by
  constructor
  · simp [evaluate_opportunity, choose_execution_size, estimate_fees_and_gas,
      defaultFeesConfig, base_aaa_bbb, rep_aaa, List.lookup,
      MIN_ABSOLUTE_PROFIT, MIN_ROI_PERCENTAGE, oppSameExchange]
    norm_num
  · rfl

/-- C10 (amended): every opportunity constructed by the evaluator has a
positive spread, positive size, `grossProfitPerUnit = sell - buy`, and
both thresholds met; the `buy_exchange ≠ sell_exchange` part of the
invariant is not enforced by the evaluator but holds for every
opportunity produced by either scan mode, whose loops skip same-exchange
comparisons before calling the evaluator. -/
theorem opportunity_invariant :
    (∀ (cfg : FeesConfig) (be se pair : String) (bp sp bs ss : ℚ)
        (opp : ArbitrageOpportunity),
        evaluate_opportunity cfg be se pair bp sp bs ss = some opp →
        opp.buy_price < opp.sell_price ∧ 0 < opp.max_size ∧
        opp.gross_profit_per_unit = opp.sell_price - opp.buy_price ∧
        MIN_ABSOLUTE_PROFIT ≤ opp.net_profit ∧
        MIN_ROI_PERCENTAGE ≤ opp.roi_percentage) ∧
    (∀ (cfg : FeesConfig) (books : Store) (opp : ArbitrageOpportunity),
        opp ∈ analyze_all_spreads cfg books →
        opp.buy_exchange ≠ opp.sell_exchange) ∧
    (∀ (cfg : FeesConfig) (books : Store) (key : String)
        (res : List ArbitrageOpportunity) (store2 : Store),
        analyze_spread cfg books key = (Except.ok res, store2) →
        ∀ opp ∈ res, opp.buy_exchange ≠ opp.sell_exchange) := by
  refine ⟨?_, analyze_all_spreads_distinct_exchanges, ?_⟩
  · intro cfg be se pair bp sp bs ss opp h
    rcases (evaluate_opportunity_some_iff cfg be se pair bp sp bs ss opp).1 h
      with ⟨hlt, hpos, hnp, hroi, rfl⟩
    exact ⟨hlt, hpos, rfl, hnp, hroi⟩
  · intro cfg books key res store2 hres opp hopp
    simp only [analyze_spread] at hres
    split at hres
    · simp at hres
    · injection hres with hres1 hres2
      injection hres1 with hres1
      subst hres1
      exact analyze_all_spreads_distinct_exchanges cfg books opp
        (List.mem_filter.mp hopp).1

/-- Witness for C10: the evaluator part applied at a concrete accepted
cross-venue input. -/
theorem opportunity_invariant_witness :
    oppCross.buy_price < oppCross.sell_price ∧ 0 < oppCross.max_size ∧
    oppCross.gross_profit_per_unit =
      oppCross.sell_price - oppCross.buy_price ∧
    MIN_ABSOLUTE_PROFIT ≤ oppCross.net_profit ∧
    MIN_ROI_PERCENTAGE ≤ oppCross.roi_percentage :=
  opportunity_invariant.1 defaultFeesConfig "binance" "uniswap-v3-exact"
    "ETH/USDT" 2000 3000 1 1 oppCross (by
      simp [evaluate_opportunity, choose_execution_size,
        estimate_fees_and_gas, defaultFeesConfig, base_eth_usdt, rep_eth,
        List.lookup, MIN_ABSOLUTE_PROFIT, MIN_ROI_PERCENTAGE, oppCross]
      norm_num)

/-! ### C9: targeted scan on a missing key -/

/-- C9: for a key absent from the store, the targeted scan returns a
recoverable error value and leaves the store unchanged. -/
theorem analyze_spread_missing_key (cfg : FeesConfig) (books : Store)
    (key : String) (h : books.lookup key = none) :
    analyze_spread cfg books key =
      (Except.error ("Orderbook not found for key: " ++ key), books) := by
  simp only [analyze_spread, h]

/-- Witness for C9: an empty store and an arbitrary key. -/
theorem analyze_spread_missing_key_witness :
    analyze_spread defaultFeesConfig [] "binance:BTC/USDT" =
      (Except.error ("Orderbook not found for key: " ++ "binance:BTC/USDT"),
        []) :=
  analyze_spread_missing_key defaultFeesConfig [] "binance:BTC/USDT" rfl

/-! ### C2: what the targeted scan actually does -/

/-- C2 counterexample: with the two-book store and updated key
"binance:BTC/USDT", the targeted scan returns the opportunity that buys
at the updated venue — the updated venue is on the buy side, which the
claim says never happens (the scan filters the full grouped scan by
exchange name instead of fixing the updated venue as the sell side). -/
theorem targeted_scan_returns_buy_side_updated :
    analyze_spread defaultFeesConfig storeAB "binance:BTC/USDT" =
      (Except.ok [oppABdefault], storeAB) ∧
    storeAB.lookup "binance:BTC/USDT" = some bookA ∧
    bookA.exchange = "binance" ∧
    oppABdefault.buy_exchange = "binance" := by
  refine ⟨?_, rfl, rfl, rfl⟩
  simp [analyze_spread, analyze_all_spreads, groupKeys, groupOf, storeAB,
    bookA, bookB, canon_btc_usdt, scanGroup, tryPair, normalize_pair_symbols,
    nowbtc_btc_usdt, List.filterMap_cons, evaluate_opportunity,
    choose_execution_size, estimate_fees_and_gas, defaultFeesConfig,
    base_btc_usdt, rep_btc, List.lookup, MIN_ABSOLUTE_PROFIT,
    MIN_ROI_PERCENTAGE, oppABdefault]
  norm_num [List.mergeSort_singleton, oppABdefault]

/-- C2 (amended): for an updated key present in the store, the targeted
scan returns exactly the full grouped scan's opportunities whose buy or
sell exchange equals the updated book's exchange — either side may be
the updated venue, and the comparison is not restricted to the updated
key's book. -/
theorem analyze_spread_filters_by_exchange (cfg : FeesConfig)
    (books : Store) (key : String) (book : OrderBook)
    (h : books.lookup key = some book) :
    analyze_spread cfg books key =
      (Except.ok ((analyze_all_spreads cfg books).filter fun opp =>
          opp.buy_exchange == book.exchange ||
          opp.sell_exchange == book.exchange), books) ∧
    ∀ opp res store2,
      analyze_spread cfg books key = (Except.ok res, store2) →
      (opp ∈ res ↔ opp ∈ analyze_all_spreads cfg books ∧
        (opp.buy_exchange = book.exchange ∨
         opp.sell_exchange = book.exchange)) := by
  have h1 : analyze_spread cfg books key =
      (Except.ok ((analyze_all_spreads cfg books).filter fun opp =>
          opp.buy_exchange == book.exchange ||
          opp.sell_exchange == book.exchange), books) := by
    simp only [analyze_spread, h]
  refine ⟨h1, ?_⟩
  intro opp res store2 h2
  rw [h1] at h2
  injection h2 with h21 h22
  injection h21 with h21
  subst h21
  simp [List.mem_filter]

/-- Witness for C2's amended statement at the two-book store with the
"kraken" book as the updated one. -/
theorem analyze_spread_filters_by_exchange_witness :
    analyze_spread defaultFeesConfig storeAB "kraken:BTC/USDT" =
      (Except.ok ((analyze_all_spreads defaultFeesConfig storeAB).filter
          fun opp =>
            opp.buy_exchange == bookB.exchange ||
            opp.sell_exchange == bookB.exchange), storeAB) ∧
    ∀ opp res store2,
      analyze_spread defaultFeesConfig storeAB "kraken:BTC/USDT" =
        (Except.ok res, store2) →
      (opp ∈ res ↔ opp ∈ analyze_all_spreads defaultFeesConfig storeAB ∧
        (opp.buy_exchange = bookB.exchange ∨
         opp.sell_exchange = bookB.exchange)) :=
  analyze_spread_filters_by_exchange defaultFeesConfig storeAB
    "kraken:BTC/USDT" bookB rfl

/-! ### C1: the worked scenario, as the code computes it -/

/-- C1 counterexample: on the scenario store (venue A = "binance" asking
`(30000, 1)`, venue B = "kraken" bidding `(30200, 1)`, 0.1% taker fee for
the centralized venue, 0.15% fallback for the other, no withdrawal fees),
the full scan yields one opportunity whose estimated fees are `1/500`
(percentages applied to the 0.8-unit size, not to notional value), so
fees are nowhere near the claimed `≈ 48.16`, net profit is above 159
rather than `≈ 111.84`, and ROI is above 0.6% rather than `≈ 0.465%`. -/
theorem scenario_fees_not_notional :
    analyze_all_spreads feesNoWithdrawal storeAB = [oppAB] ∧
    oppAB.estimated_fees = 1/500 ∧ oppAB.estimated_fees < 48 ∧
    oppAB.net_profit = 79999/500 ∧ 159 < oppAB.net_profit ∧
    oppAB.roi_percentage = 79999/120000 ∧ 3/5 < oppAB.roi_percentage := by
  refine ⟨?_, rfl, by norm_num [oppAB], rfl, by norm_num [oppAB], rfl,
    by norm_num [oppAB]⟩
  simp [analyze_all_spreads, groupKeys, groupOf, storeAB, bookA, bookB,
    canon_btc_usdt, scanGroup, tryPair, normalize_pair_symbols,
    nowbtc_btc_usdt, List.filterMap_cons, evaluate_opportunity,
    choose_execution_size, estimate_fees_and_gas, feesNoWithdrawal,
    base_btc_usdt, rep_btc, List.lookup, MIN_ABSOLUTE_PROFIT,
    MIN_ROI_PERCENTAGE, oppAB]
  norm_num [List.mergeSort_singleton, oppAB]

/-- C1 (amended): the scenario scan yields exactly one opportunity,
buying at "binance" and selling at "kraken" with size `0.8` and gross
profit `160`, but with fees computed as percentages of size
(`0.8*0.1/100` for the buy side and the fallback `0.8*0.15/100` for the
sell side, no withdrawal fee), hence net profit `160 - 1/500` and
ROI `(160 - 1/500) / 24000 * 100`, both above their thresholds. -/
theorem scenario_amended :
    analyze_all_spreads feesNoWithdrawal storeAB = [oppAB] ∧
    oppAB.buy_exchange = "binance" ∧ oppAB.sell_exchange = "kraken" ∧
    oppAB.pair = "BTC/USDT" ∧ oppAB.max_size = 4/5 ∧
    oppAB.gross_profit_per_unit * oppAB.max_size = 160 ∧
    oppAB.estimated_fees = (4/5) * (1/10) / 100 + (4/5) * (15/100) / 100 ∧
    oppAB.net_profit = 160 - oppAB.estimated_fees ∧
    oppAB.roi_percentage = oppAB.net_profit / (30000 * (4/5)) * 100 ∧
    MIN_ABSOLUTE_PROFIT ≤ oppAB.net_profit ∧
    MIN_ROI_PERCENTAGE ≤ oppAB.roi_percentage := by
  refine ⟨?_, rfl, rfl, rfl, rfl, by norm_num [oppAB],
    by norm_num [oppAB], by norm_num [oppAB], by norm_num [oppAB],
    by norm_num [oppAB, MIN_ABSOLUTE_PROFIT],
    by norm_num [oppAB, MIN_ROI_PERCENTAGE]⟩
  simp [analyze_all_spreads, groupKeys, groupOf, storeAB, bookA, bookB,
    canon_btc_usdt, scanGroup, tryPair, normalize_pair_symbols,
    nowbtc_btc_usdt, List.filterMap_cons, evaluate_opportunity,
    choose_execution_size, estimate_fees_and_gas, feesNoWithdrawal,
    base_btc_usdt, rep_btc, List.lookup, MIN_ABSOLUTE_PROFIT,
    MIN_ROI_PERCENTAGE, oppAB]
  norm_num [List.mergeSort_singleton, oppAB]

end SwapSleuth
